import Mathlib

/-!
Verification of the DICOM PACS core (PedemonteGiacomo/DICOM).

Shallow embedding of:
- `handle_store`, `handle_find`, `handle_move` from
  `src/DICOM_PACS/PACS_SERVER/PACS_new.py`;
- `wait_for_files` from `src/DICOM_PACS_VIEWER/backend/backend_new.py`.

Modelling conventions:
- a pydicom `Dataset` is a record of optional string attributes; a missing
  attribute is `none`, and attribute access on a missing attribute (which
  raises `AttributeError` in Python) is modelled through `Except`;
- Python string truthiness (`ds.PatientID`) is the test `≠ ""`;
- `str.strip()` and `str.endswith` are modelled by `pyStrip` and
  `pyEndsWith`, written over character lists so they evaluate in the kernel;
- the transport collaborator (pynetdicom association / C-STORE send) is an
  explicit environment parameter: one `NetOutcome` per transfer attempt;
- the cooperative cancellation flag `event.is_cancelled` is an external
  time-varying input, sampled once per checkpoint: it is a function from the
  poll counter (number of checkpoints passed so far) to `Bool`;
- generator handlers are functions returning the list of yielded events;
- real time in `wait_for_files` is discretized into the finite sequence of
  polls that occur before the timeout elapses: each poll is a snapshot
  `Option (List String)` of the landing folder (`none` = folder missing),
  and exhausting the sequence is the timeout firing.
-/

/-- Python `str.strip()`: drop ASCII whitespace from both ends.  Written
over the character list so that it evaluates inside the kernel. -/
def pyStrip (s : String) : String :=
  String.mk (((s.data.dropWhile Char.isWhitespace).reverse.dropWhile
    Char.isWhitespace).reverse)

/-- Python `str.endswith(suffix)`, written over the character list so that
it evaluates inside the kernel. -/
def pyEndsWith (s suffix : String) : Bool :=
  suffix.data.isSuffixOf s.data

instance {ε α : Type} [DecidableEq ε] [DecidableEq α] :
    DecidableEq (Except ε α) := fun x y =>
  match x, y with
  | .ok a, .ok b =>
    if h : a = b then isTrue (by rw [h])
    else isFalse (by intro he; cases he; exact h rfl)
  | .error a, .error b =>
    if h : a = b then isTrue (by rw [h])
    else isFalse (by intro he; cases he; exact h rfl)
  | .ok _, .error _ => isFalse (by intro h; cases h)
  | .error _, .ok _ => isFalse (by intro h; cases h)

/-- a pydicom Dataset restricted to the attributes the PACS core reads. -/
structure DicomDataset where
  queryRetrieveLevel : Option String := none
  patientID : Option String := none
  patientName : Option String := none
  sopInstanceUID : Option String := none
  sopClassUID : Option String := none
deriving DecidableEq

/-- errors a handler can raise: a missing required attribute
(Python `AttributeError`) or a persistence failure (`ds.save_as` raising). -/
inductive StoreError where
  | missingAttribute (name : String)
  | persistFailed (msg : String)
deriving DecidableEq

/-- `handle_store` (PACS_new.py lines 24-31): build the filename from
`SOPInstanceUID`, persist the dataset (`ds.save_as`, which may fail — the
fallible filesystem is the `persist` parameter), append the dataset to
`stored_datasets`, return status `0x0000`.  The append is unconditional. -/
def handle_store (persist : String → Except StoreError Unit)
    (stored : List DicomDataset) (ds : DicomDataset) :
    Except StoreError (Nat × List DicomDataset) :=
  match ds.sopInstanceUID with
  | none => .error (.missingAttribute "SOPInstanceUID")
  | some uid =>
    let filename := uid ++ ".dcm"
    match persist filename with
    | .error e => .error e
    | .ok _ => .ok (0x0000, stored ++ [ds])

/-- one yielded element of the `handle_find` generator:
`(0xFF00, match)` or the `(0xFE00, None)` cancellation marker. -/
inductive FindEvent where
  | pending (res : DicomDataset)
  | cancelled
deriving DecidableEq

/-- the match-collection loop of `handle_find` (PACS_new.py lines 40-53):
walk `stored_datasets` keeping the set `patient_ids_seen` of raw (untrimmed)
PatientIDs already emitted; an instance matches when its trimmed PatientID
equals the trimmed query PatientID and its raw PatientID is not yet seen. -/
def findMatchesLoop (qpid : String) :
    List DicomDataset → List String → List DicomDataset
  | [], _ => []
  | inst :: rest, seen =>
    match inst.patientID with
    | some p =>
      if pyStrip p = pyStrip qpid ∧ p ∉ seen then
        { queryRetrieveLevel := some "PATIENT", patientID := some p,
          patientName := inst.patientName } ::
          findMatchesLoop qpid rest (p :: seen)
      else findMatchesLoop qpid rest seen
    | none => findMatchesLoop qpid rest seen

/-- the yield loop of `handle_find` (PACS_new.py lines 55-59): before each
match, poll `event.is_cancelled`; if set, yield the cancellation marker and
stop, otherwise yield the pending match. -/
def findYieldLoop (isCancelled : Nat → Bool) :
    List DicomDataset → Nat → List FindEvent
  | [], _ => []
  | m :: rest, i =>
    if isCancelled i then [.cancelled]
    else .pending m :: findYieldLoop isCancelled rest (i + 1)

/-- `handle_find` (PACS_new.py lines 34-59): read `QueryRetrieveLevel`
(raises when absent), collect matches only when the level is `PATIENT`,
the query has a `PatientID` attribute and its value is truthy (non-empty),
then stream the matches with per-match cancellation polling. -/
def handle_find (stored : List DicomDataset) (query : DicomDataset)
    (isCancelled : Nat → Bool) : Except StoreError (List FindEvent) :=
  match query.queryRetrieveLevel with
  | none => .error (.missingAttribute "QueryRetrieveLevel")
  | some level =>
    let found :=
      if level = "PATIENT" then
        match query.patientID with
        | some qpid => if qpid ≠ "" then findMatchesLoop qpid stored [] else []
        | none => []
      else []
    .ok (findYieldLoop isCancelled found 0)

/-- `KNOWN_AE_DESTINATIONS` (PACS_new.py lines 67-70). -/
def KNOWN_AE_DESTINATIONS (ae : String) : Option (String × Nat) :=
  if ae = "TESTSCU" then some ("127.0.0.1", 11113)
  else if ae = "TESTSCU2" then some ("127.0.0.1", 11119)
  else none

/-- the behaviour of the transport for one transfer attempt:
whether `storage_ae.associate(...)` produced an established association,
and, if so, the status returned by `assoc.send_c_store` (`none` models a
falsy/absent status object). -/
structure NetOutcome where
  established : Bool
  sendStatus : Option Nat
deriving DecidableEq

/-- one yielded element of the `handle_move` generator: the initial
`(addr, port, kwargs)` triple, the candidate count, or a `(status, None)`
pair. -/
inductive MoveEvent where
  | resolved (addr : String) (port : Nat) (aeTitle : String)
  | count (n : Nat)
  | status (code : Nat)
deriving DecidableEq

/-- classification of one transfer attempt (PACS_new.py lines 121-135):
association not established ⇒ `0xA801`; established and the send status is
present with value `0x0000` ⇒ `0xFF00`; otherwise ⇒ `0xB000`. -/
def transferEvent (o : NetOutcome) : MoveEvent :=
  if o.established then
    if o.sendStatus = some 0x0000 then .status 0xFF00 else .status 0xB000
  else .status 0xA801

/-- the STREAM loop of `handle_move` (PACS_new.py lines 107-135): for each
candidate, poll `event.is_cancelled` (yield `0xFE00` and stop when set),
otherwise attempt the transfer and yield its classification; the loop
continues to the next candidate after every classification, including the
`0xA801` association-failure case. -/
def moveStream (net : Nat → NetOutcome) (isCancelled : Nat → Bool) :
    List DicomDataset → Nat → List MoveEvent
  | [], _ => []
  | _inst :: rest, i =>
    if isCancelled i then [.status 0xFE00]
    else transferEvent (net i) :: moveStream net isCancelled rest (i + 1)

/-- the predicate selecting move candidates (PACS_new.py line 99):
trimmed equality of the instance PatientID against the query PatientID,
instances without a PatientID excluded. -/
def trimMatches (qpid : String) (inst : DicomDataset) : Bool :=
  match inst.patientID with
  | some p => pyStrip p = pyStrip qpid
  | none => false

/-- candidate selection of `handle_move` (PACS_new.py lines 94-100): when
the level is `PATIENT` and the query has a `PatientID` attribute (presence
only — no truthiness test here, unlike `handle_find`), filter the stored
datasets by trimmed PatientID equality, in insertion order.  The source
reads `QueryRetrieveLevel` unconditionally; every claim concerns queries
carrying the attribute, and a missing level is modelled as no match. -/
def moveCandidates (stored : List DicomDataset) (query : DicomDataset) :
    List DicomDataset :=
  match query.queryRetrieveLevel, query.patientID with
  | some "PATIENT", some qpid => stored.filter (trimMatches qpid)
  | _, _ => []

/-- `handle_move` (PACS_new.py lines 62-135): resolve the destination in
the static registry (unknown ⇒ yield one `0xA801` and stop); otherwise
yield the resolved `(addr, port, {ae_title, contexts})` triple, then the
number of candidates, then the transfer stream. -/
def handle_move (stored : List DicomDataset) (query : DicomDataset)
    (destAE : String) (net : Nat → NetOutcome) (isCancelled : Nat → Bool) :
    List MoveEvent :=
  match KNOWN_AE_DESTINATIONS destAE with
  | none => [.status 0xA801]
  | some (addr, port) =>
    .resolved addr port destAE ::
      .count (moveCandidates stored query).length ::
      moveStream net isCancelled (moveCandidates stored query) 0

/-- the `.dcm` filter applied to a folder listing
(backend_new.py line 77). -/
def dcmFilter (listing : List String) : List String :=
  listing.filter (fun f => pyEndsWith f ".dcm")

/-- the mutable locals of `wait_for_files`
(backend_new.py lines 71-74). -/
structure WaitState where
  stableCount : Nat
  previousCount : Int
  currentFiles : List String
deriving DecidableEq

/-- the polling loop of `wait_for_files` (backend_new.py lines 75-86), one
list element per poll that occurs before the timeout elapses.  A `none`
snapshot (folder missing) leaves the whole state untouched; otherwise the
`.dcm` count is compared with `previous_count`: equal ⇒ the stability
counter advances, different ⇒ it resets and `previous_count` is updated;
the loop breaks as soon as the counter reaches `consecutive`. -/
def wait_loop (consecutive : Nat) :
    List (Option (List String)) → WaitState → List String
  | [], st => st.currentFiles
  | none :: rest, st => wait_loop consecutive rest st
  | some listing :: rest, st =>
    if ((dcmFilter listing).length : Int) = st.previousCount then
      if consecutive ≤ st.stableCount + 1 then dcmFilter listing
      else wait_loop consecutive rest
        ⟨st.stableCount + 1, st.previousCount, dcmFilter listing⟩
    else
      if consecutive ≤ 0 then dcmFilter listing
      else wait_loop consecutive rest
        ⟨0, ((dcmFilter listing).length : Int), dcmFilter listing⟩

/-- `wait_for_files` (backend_new.py lines 66-87): run the polling loop
from `stable_count = 0`, `previous_count = -1`, `current_files = []`. -/
def wait_for_files (consecutive : Nat)
    (snaps : List (Option (List String))) : List String :=
  wait_loop consecutive snaps ⟨0, -1, []⟩

/-- the sequence of `.dcm` counts a sequence of folder listings exhibits. -/
def pollCounts (listings : List (List String)) : List Nat :=
  listings.map (fun l => (dcmFilter l).length)

/-- length of the run of equal counts ending at poll `i`. -/
def runLen (cs : List Nat) : Nat → Nat
  | 0 => 1
  | i + 1 => if cs.getD (i + 1) 0 = cs.getD i 0 then runLen cs i + 1 else 1

/-- the spec's stopping condition at poll `i`: the observed count has been
unchanged for `cons` consecutive polls, i.e. the `cons + 1` observations
ending at poll `i` are all equal. -/
def stableWindow (cons : Nat) (cs : List Nat) (i : Nat) : Prop :=
  cons ≤ i ∧ ∀ k ≤ cons, cs.getD (i - k) 0 = cs.getD i 0

instance (cons : Nat) (cs : List Nat) (i : Nat) :
    Decidable (stableWindow cons cs i) := by
  unfold stableWindow; infer_instance

/-- selects the find events that report a match whose raw PatientID is `p`. -/
def isMatchFor (p : String) : FindEvent → Bool
  | .pending r => r.patientID == some p
  | .cancelled => false

/-- selects the find events that report a match whose stripped PatientID is
`p` (the key the dedup claim speaks about). -/
def isTrimMatchFor (p : String) : FindEvent → Bool
  | .pending r =>
    match r.patientID with
    | some q => pyStrip q == p
    | none => false
  | .cancelled => false

/-- a cancellation flag that never fires. -/
def cfalse : Nat → Bool := fun _ => false

/-- a transport in which every association is established and every send
is accepted with status `0x0000`. -/
def netAllOk : Nat → NetOutcome := fun _ => ⟨true, some 0⟩

/-- a transport in which the first association fails to establish and all
later transfers are accepted. -/
def netFailFirst : Nat → NetOutcome :=
  fun i => if i = 0 then ⟨false, none⟩ else ⟨true, some 0⟩

/-- persistence that always succeeds. -/
def persistOk : String → Except StoreError Unit := fun _ => .ok ()

/-- persistence that always fails. -/
def persistFail : String → Except StoreError Unit :=
  fun _ => .error (.persistFailed "disk full")

/-- a stored instance with PatientID `"A"`. -/
def dsA : DicomDataset := { patientID := some "A" }

/-- a stored instance whose raw PatientID `" A"` differs from `"A"` only by
surrounding whitespace, so both strip to `"A"`. -/
def dsSpaceA : DicomDataset := { patientID := some " A" }

/-- two stored instances for patient `"P1"`. -/
def dsP1a : DicomDataset :=
  { patientID := some "P1", sopInstanceUID := some "1.1" }

/-- second stored instance for patient `"P1"`. -/
def dsP1b : DicomDataset :=
  { patientID := some "P1", sopInstanceUID := some "1.2" }

/-- a stored instance carrying a SOPInstanceUID, for the store claims. -/
def dsUID : DicomDataset :=
  { patientID := some "P1", sopInstanceUID := some "1.2.3" }

/-- a PATIENT-level query for PatientID `"A"`. -/
def queryA : DicomDataset :=
  { queryRetrieveLevel := some "PATIENT", patientID := some "A" }

/-- a PATIENT-level query for PatientID `"P1"`. -/
def queryP1 : DicomDataset :=
  { queryRetrieveLevel := some "PATIENT", patientID := some "P1" }

/-- a PATIENT-level query whose PatientID attribute is present but empty. -/
def queryEmptyPid : DicomDataset :=
  { queryRetrieveLevel := some "PATIENT", patientID := some "" }

section MoveLemmas

/-- shifting the index of a map over an initial segment by one. -/
theorem map_shift_cons {β : Type} (f : Nat → β) (n j : Nat) :
    f j :: (List.range n).map (fun k => f (j + 1 + k)) =
      (List.range (n + 1)).map (fun k => f (j + k)) := by
  rw [List.range_succ_eq_map, List.map_cons, List.map_map]
  refine congrArg (List.cons _) ?_
  refine List.map_congr_left ?_
  intro a _
  simp only [Function.comp_apply]
  congr 1
  omega

/-- when cancellation never fires, the STREAM loop visits every candidate
and emits exactly the classification of each transfer attempt, in order. -/
theorem moveStream_no_cancel (net : Nat → NetOutcome) (isC : Nat → Bool)
    (hc : ∀ i, isC i = false) (l : List DicomDataset) :
    ∀ j : Nat, moveStream net isC l j =
      (List.range l.length).map (fun k => transferEvent (net (j + k))) := by
  induction l with
  | nil => intro j; simp [moveStream]
  | cons x rest ih =>
    intro j
    simp only [moveStream, hc j, Bool.false_eq_true, if_false, ih (j + 1),
      List.length_cons]
    exact map_shift_cons (fun m => transferEvent (net m)) rest.length j

/-- when every association is established and every send accepted, the
STREAM loop emits one `0xFF00` per candidate. -/
theorem moveStream_all_success (net : Nat → NetOutcome) (isC : Nat → Bool)
    (hc : ∀ i, isC i = false) (hnet : ∀ i, net i = ⟨true, some 0x0000⟩)
    (l : List DicomDataset) (j : Nat) :
    moveStream net isC l j =
      List.replicate l.length (.status 0xFF00) := by
  rw [moveStream_no_cancel net isC hc l j]
  have h : ∀ k : Nat, transferEvent (net (j + k)) = MoveEvent.status 0xFF00 := by
    intro k; rw [hnet (j + k)]; rfl
  simp only [h]
  simp [List.map_const']

/-- when the cancellation flag is false for the first `K` checkpoints of
the STREAM loop and true at the `K`-th, the loop emits the outcomes of the
first `K` transfer attempts followed by one `0xFE00` marker; the transport
behaviour beyond index `K` is irrelevant. -/
theorem moveStream_cancel_split (net : Nat → NetOutcome) (isC : Nat → Bool) :
    ∀ (K : Nat) (l : List DicomDataset) (j : Nat), K < l.length →
      (∀ i, i < K → isC (j + i) = false) → isC (j + K) = true →
      moveStream net isC l j =
        ((List.range K).map fun k => transferEvent (net (j + k))) ++
          [.status 0xFE00] := by
  intro K
  induction K with
  | zero =>
    intro l j hK hf ht
    cases l with
    | nil => simp at hK
    | cons x rest =>
      have h0 : isC j = true := by simpa using ht
      simp [moveStream, h0]
  | succ K ih =>
    intro l j hK hf ht
    cases l with
    | nil => simp at hK
    | cons x rest =>
      have h0 : isC j = false := by simpa using hf 0 (Nat.succ_pos K)
      have hrest : moveStream net isC rest (j + 1) =
          ((List.range K).map fun k => transferEvent (net (j + 1 + k))) ++
            [.status 0xFE00] := by
        refine ih rest (j + 1) (by simpa using hK) (fun i hi => ?_) ?_
        · have h4 : j + 1 + i = j + (i + 1) := by omega
          rw [h4]; exact hf (i + 1) (by omega)
        · have h3 : j + 1 + K = j + (K + 1) := by omega
          rw [h3]; exact ht
      simp only [moveStream, h0, Bool.false_eq_true, if_false, hrest]
      rw [← map_shift_cons (fun m => transferEvent (net m)) K j,
        List.cons_append]

end MoveLemmas

/-- the candidate set of a PATIENT-level move request reduces to the
trimmed-equality filter over the stored datasets. -/
theorem moveCandidates_eq_filter (stored : List DicomDataset)
    (query : DicomDataset) (qpid : String)
    (hlvl : query.queryRetrieveLevel = some "PATIENT")
    (hpid : query.patientID = some qpid) :
    moveCandidates stored query = stored.filter (trimMatches qpid) := by
  simp [moveCandidates, hlvl, hpid]

/-- C6: a move whose destination identifier is not in the static registry
yields exactly one `0xA801` (destination unknown) outcome and nothing
else: no resolution event, no candidate-count event, and zero transfer
attempts — the transport environment is universally quantified and never
consulted. -/
theorem move_unknown_destination_single_outcome
    (stored : List DicomDataset) (query : DicomDataset) (destAE : String)
    (net : Nat → NetOutcome) (isC : Nat → Bool)
    (hdest : KNOWN_AE_DESTINATIONS destAE = none) :
    handle_move stored query destAE net isC = [.status 0xA801] := by
  simp [handle_move, hdest]

/-- C6 witness: a concrete move to the unregistered destination
`"NOWHERE"` yields exactly the single `0xA801` outcome. -/
theorem move_unknown_destination_single_outcome_witness :
    handle_move [dsP1a, dsP1b] queryP1 "NOWHERE" netAllOk cfalse =
      [.status 0xA801] :=
  move_unknown_destination_single_outcome _ _ _ _ _ (by decide)

/-- C5: a move to a known destination with a PATIENT-level identifier
first yields the resolved destination, then a single candidate-count event
whose count `n` is the number of stored instances whose stripped PatientID
equals the stripped request PatientID, before any transfer; when every
transfer is accepted and cancellation never fires it then yields exactly
`n` `0xFF00` outcomes in repository insertion order, and `n = 0` yields
zero per-item outcomes (`List.replicate 0 _ = []`). -/
theorem move_known_destination_success_stream
    (stored : List DicomDataset) (query : DicomDataset)
    (destAE addr : String) (port : Nat) (net : Nat → NetOutcome)
    (isC : Nat → Bool) (qpid : String)
    (hdest : KNOWN_AE_DESTINATIONS destAE = some (addr, port))
    (hlvl : query.queryRetrieveLevel = some "PATIENT")
    (hpid : query.patientID = some qpid)
    (hc : ∀ i, isC i = false)
    (hnet : ∀ i, net i = ⟨true, some 0x0000⟩) :
    handle_move stored query destAE net isC =
      .resolved addr port destAE ::
        .count (stored.filter (trimMatches qpid)).length ::
        List.replicate (stored.filter (trimMatches qpid)).length
          (.status 0xFF00) := by
  have hcand := moveCandidates_eq_filter stored query qpid hlvl hpid
  simp [handle_move, hdest, hcand,
    moveStream_all_success net isC hc hnet]

/-- C5 witness: a concrete move of two matching instances (one stored
instance of another patient interleaved) to `"TESTSCU"`, all transfers
accepted: resolution, count 2, then two `0xFF00` outcomes. -/
theorem move_known_destination_success_stream_witness :
    handle_move [dsP1a, dsA, dsP1b] queryP1 "TESTSCU" netAllOk cfalse =
      .resolved "127.0.0.1" 11113 "TESTSCU" ::
        .count (([dsP1a, dsA, dsP1b].filter (trimMatches "P1")).length) ::
        List.replicate (([dsP1a, dsA, dsP1b].filter (trimMatches "P1")).length)
          (.status 0xFF00) :=
  move_known_destination_success_stream [dsP1a, dsA, dsP1b] queryP1
    "TESTSCU" "127.0.0.1" 11113 netAllOk cfalse "P1" (by decide) rfl rfl
    (fun _ => rfl) (fun _ => rfl)

/-- C4: when the cancellation token becomes set after exactly `K`
completed transfers — polled false at the first `K` checkpoints and true
from the `K`-th checkpoint on — and `K` is less than the number `n` of
matching candidates, the move yields the resolution event, the count
event, the `K` per-item outcomes of the attempted transfers, then exactly
one `0xFE00` cancellation marker and nothing else; the transport is
unconstrained at indices `≥ K`, so candidates `K+1..n` are never
attempted and no session is opened for them. -/
theorem move_cancelled_after_k_transfers
    (stored : List DicomDataset) (query : DicomDataset)
    (destAE addr : String) (port : Nat) (net : Nat → NetOutcome)
    (K : Nat) (qpid : String)
    (hdest : KNOWN_AE_DESTINATIONS destAE = some (addr, port))
    (hlvl : query.queryRetrieveLevel = some "PATIENT")
    (hpid : query.patientID = some qpid)
    (hK : K < (stored.filter (trimMatches qpid)).length) :
    handle_move stored query destAE net (fun i => decide (K ≤ i)) =
      .resolved addr port destAE ::
        .count (stored.filter (trimMatches qpid)).length ::
        (((List.range K).map fun k => transferEvent (net k)) ++
          [.status 0xFE00]) := by
  have hcand := moveCandidates_eq_filter stored query qpid hlvl hpid
  have hstream := moveStream_cancel_split net (fun i => decide (K ≤ i)) K
    (stored.filter (trimMatches qpid)) 0 hK
    (fun i hi => by simp; omega) (by simp)
  simp only [Nat.zero_add] at hstream
  simp [handle_move, hdest, hcand, hstream]

/-- C4 witness: three matching candidates, cancellation firing after one
completed transfer: one `0xFF00` outcome then the `0xFE00` marker. -/
theorem move_cancelled_after_k_transfers_witness :
    handle_move [dsP1a, dsP1b, dsP1a] queryP1 "TESTSCU" netAllOk
      (fun i => decide (1 ≤ i)) =
      .resolved "127.0.0.1" 11113 "TESTSCU" ::
        .count (([dsP1a, dsP1b, dsP1a].filter (trimMatches "P1")).length) ::
        (((List.range 1).map fun k => transferEvent (netAllOk k)) ++
          [.status 0xFE00]) :=
  move_cancelled_after_k_transfers [dsP1a, dsP1b, dsP1a] queryP1 "TESTSCU"
    "127.0.0.1" 11113 netAllOk 1 "P1" (by decide) rfl rfl (by decide)

/-- C2 counterexample: two matching candidates, the outbound session for
the first fails to establish, the second establishes and is accepted.  The
orchestrator emits `0xA801` for the first candidate and then still
attempts — and completes — the second transfer, so the session failure is
not terminal: the claim that no later candidate is attempted is false. -/
theorem move_session_failure_not_terminal_cex :
    handle_move [dsP1a, dsP1b] queryP1 "TESTSCU" netFailFirst cfalse =
      [.resolved "127.0.0.1" 11113 "TESTSCU", .count 2,
        .status 0xA801, .status 0xFF00] := by
  decide

/-- C2 (amended): a session-establishment failure during STREAM emits one
`0xA801` (destination unavailable) outcome for that candidate only and is
not terminal: with cancellation never firing, the orchestrator visits
every candidate, emitting exactly one outcome per candidate in insertion
order, so outcomes already emitted are kept and later candidates are still
attempted; an unestablished session is always classified `0xA801`. -/
theorem move_session_failure_continues
    (stored : List DicomDataset) (query : DicomDataset)
    (destAE addr : String) (port : Nat) (net : Nat → NetOutcome)
    (isC : Nat → Bool) (qpid : String)
    (hdest : KNOWN_AE_DESTINATIONS destAE = some (addr, port))
    (hlvl : query.queryRetrieveLevel = some "PATIENT")
    (hpid : query.patientID = some qpid)
    (hc : ∀ i, isC i = false) :
    handle_move stored query destAE net isC =
      .resolved addr port destAE ::
        .count (stored.filter (trimMatches qpid)).length ::
        ((List.range (stored.filter (trimMatches qpid)).length).map
          fun k => transferEvent (net k)) ∧
    ∀ o : NetOutcome, o.established = false →
      transferEvent o = .status 0xA801 := by
  constructor
  · have hcand := moveCandidates_eq_filter stored query qpid hlvl hpid
    have hstream := moveStream_no_cancel net isC hc
      (stored.filter (trimMatches qpid)) 0
    simp only [Nat.zero_add] at hstream
    simp [handle_move, hdest, hcand, hstream]
  · intro o ho
    simp [transferEvent, ho]

/-- C2 amended witness: the concrete two-candidate run with the first
session failing, instantiating the amended statement. -/
theorem move_session_failure_continues_witness :
    handle_move [dsP1a, dsP1b] queryP1 "TESTSCU" netFailFirst cfalse =
      .resolved "127.0.0.1" 11113 "TESTSCU" ::
        .count (([dsP1a, dsP1b].filter (trimMatches "P1")).length) ::
        ((List.range (([dsP1a, dsP1b].filter (trimMatches "P1")).length)).map
          fun k => transferEvent (netFailFirst k)) ∧
    ∀ o : NetOutcome, o.established = false →
      transferEvent o = .status 0xA801 :=
  move_session_failure_continues [dsP1a, dsP1b] queryP1 "TESTSCU"
    "127.0.0.1" 11113 netFailFirst cfalse "P1" (by decide) rfl rfl
    (fun _ => rfl)

/-- C3 counterexample: storing the same instance twice (persistence
succeeding) succeeds both times and leaves two repository entries sharing
SOPInstanceUID `"1.2.3"`: `handle_store` never checks whether the key is
already present, so the no-duplicate invariant fails after the second
store event. -/
theorem store_duplicate_uid_cex :
    handle_store persistOk [dsUID] dsUID = .ok (0x0000, [dsUID, dsUID]) ∧
    (([dsUID, dsUID] : List DicomDataset).filter
      (fun d => d.sopInstanceUID == some "1.2.3")).length = 2 := by
  decide

/-- C3 (amended): `handle_store` appends unconditionally — whenever the
dataset carries a SOPInstanceUID and persisting its payload succeeds, it
returns `0x0000` and the repository `stored ++ [ds]`, even when an entry
with the same SOPInstanceUID is already stored; the code therefore does
not maintain the no-duplicate invariant on duplicate store events. -/
theorem store_appends_unconditionally
    (persist : String → Except StoreError Unit)
    (stored : List DicomDataset) (ds : DicomDataset) (uid : String)
    (huid : ds.sopInstanceUID = some uid)
    (hp : persist (uid ++ ".dcm") = .ok ()) :
    handle_store persist stored ds = .ok (0x0000, stored ++ [ds]) := by
  simp [handle_store, huid, hp]

/-- C3 amended witness: the duplicate store is appended. -/
theorem store_appends_unconditionally_witness :
    handle_store persistOk [dsUID] dsUID =
      .ok (0x0000, [dsUID] ++ [dsUID]) :=
  store_appends_unconditionally persistOk [dsUID] dsUID "1.2.3" rfl rfl

/-- C8: `handle_store` returns the success status `0x0000` only when
persisting the payload succeeded, and a persistence failure is propagated
to the caller as exactly the failure it raised — never swallowed into a
success status and never silently dropped. -/
theorem store_signals_persistence_failure
    (persist : String → Except StoreError Unit)
    (stored : List DicomDataset) (ds : DicomDataset) (uid : String)
    (huid : ds.sopInstanceUID = some uid) :
    (∀ e, persist (uid ++ ".dcm") = .error e →
      handle_store persist stored ds = .error e) ∧
    (∀ status result,
      handle_store persist stored ds = .ok (status, result) →
      status = 0x0000 ∧ persist (uid ++ ".dcm") = .ok ()) := by
  constructor
  · intro e he
    simp [handle_store, huid, he]
  · intro status result h
    simp only [handle_store, huid] at h
    cases hp : persist (uid ++ ".dcm") with
    | error e => rw [hp] at h; cases h
    | ok u =>
      cases u
      rw [hp] at h
      simp only [Except.ok.injEq, Prod.mk.injEq] at h
      exact ⟨h.1.symm, rfl⟩

/-- C8 witness: with persistence failing, the concrete store event
propagates the failure to the caller instead of returning success. -/
theorem store_signals_persistence_failure_witness :
    handle_store persistFail [] dsUID =
      .error (.persistFailed "disk full") :=
  (store_signals_persistence_failure persistFail [] dsUID "1.2.3" rfl).1
    _ rfl

/-- when cancellation never fires, the find yield loop emits every match
as a pending event, in order. -/
theorem findYieldLoop_no_cancel (isC : Nat → Bool)
    (hc : ∀ i, isC i = false) :
    ∀ (l : List DicomDataset) (j : Nat),
      findYieldLoop isC l j = l.map .pending := by
  intro l
  induction l with
  | nil => intro j; simp [findYieldLoop]
  | cons m rest ih => intro j; simp [findYieldLoop, hc j, ih (j + 1)]

/-- dedup accounting of the match-collection loop: the number of collected
matches carrying the raw PatientID `p` is zero when `p` was already seen,
and otherwise one exactly when some remaining instance has raw PatientID
`p` matching the query under stripping. -/
theorem findMatchesLoop_count (qpid p : String) :
    ∀ (stored : List DicomDataset) (seen : List String),
      ((findMatchesLoop qpid stored seen).filter
          (fun r => r.patientID == some p)).length =
        if p ∈ seen then 0
        else if stored.any (fun inst =>
            inst.patientID == some p && (pyStrip p == pyStrip qpid)) then 1
        else 0 := by
  intro stored
  induction stored with
  | nil => intro seen; simp [findMatchesLoop]
  | cons inst rest ih =>
    intro seen
    cases hinst : inst.patientID with
    | none =>
      simp [findMatchesLoop, hinst, ih seen]
    | some q =>
      by_cases hq : pyStrip q = pyStrip qpid ∧ q ∉ seen
      · by_cases hpq : q = p
        · subst hpq
          have hrec := ih (q :: seen)
          simp only [List.mem_cons, true_or, if_true] at hrec
          simp [findMatchesLoop, hinst, hq, hrec, hq.1, hq.2]
        · have hrec := ih (q :: seen)
          simp [findMatchesLoop, hinst, hq, hrec, hpq,
            Ne.symm hpq]
      · rw [findMatchesLoop, hinst]
        simp only [if_neg hq]
        rw [ih seen]
        by_cases hseen : p ∈ seen
        · simp [hseen]
        · have hfalse : (inst.patientID == some p &&
              (pyStrip p == pyStrip qpid)) = false := by
            rw [hinst]
            by_cases hpq : q = p
            · subst hpq
              have : ¬ pyStrip q = pyStrip qpid := by
                intro hcontra
                exact hq ⟨hcontra, hseen⟩
              simp [this]
            · simp [hpq]
          simp [hseen, List.any_cons, hfalse]

/-- C1 counterexample: two stored instances with raw PatientIDs `"A"` and
`" A"` share the stripped PatientID `"A"`, yet a PATIENT-level query for
`"A"` yields two MatchResults whose stripped PatientID is `"A"` — not
exactly one — because the dedup set `patient_ids_seen` stores raw, not
stripped, PatientIDs. -/
theorem find_trim_dedup_cex :
    (((handle_find [dsA, dsSpaceA] queryA cfalse).toOption.getD []).filter
      (isTrimMatchFor "A")).length = 2 := by
  decide

/-- C1 (amended): the dedup key of `handle_find` is the raw (unstripped)
PatientID: for every repository state and PATIENT-level query with a
non-empty PatientID, if some stored instance carries the raw PatientID `p`
and `p` matches the query under stripping, the query yields exactly one
MatchResult with raw PatientID `p`, independent of how many instances
share that raw PatientID. -/
theorem find_dedups_by_raw_patient_id
    (stored : List DicomDataset) (query : DicomDataset) (qpid p : String)
    (isC : Nat → Bool)
    (hlvl : query.queryRetrieveLevel = some "PATIENT")
    (hpid : query.patientID = some qpid) (hne : qpid ≠ "")
    (hc : ∀ i, isC i = false)
    (hshared : ∃ inst ∈ stored, inst.patientID = some p ∧
      pyStrip p = pyStrip qpid) :
    ∃ evs, handle_find stored query isC = .ok evs ∧
      (evs.filter (isMatchFor p)).length = 1 := by
  refine ⟨findYieldLoop isC (findMatchesLoop qpid stored []) 0, ?_, ?_⟩
  · simp [handle_find, hlvl, hpid, hne]
  · rw [findYieldLoop_no_cancel isC hc _ 0, List.filter_map]
    rw [List.length_map]
    have hcong : (findMatchesLoop qpid stored []).filter
        (isMatchFor p ∘ FindEvent.pending) =
        (findMatchesLoop qpid stored []).filter
          (fun r => r.patientID == some p) :=
      List.filter_congr (fun r _ => rfl)
    rw [hcong, findMatchesLoop_count qpid p stored []]
    obtain ⟨inst, hmem, hpi, hstrip⟩ := hshared
    have hany : stored.any (fun inst =>
        inst.patientID == some p && (pyStrip p == pyStrip qpid)) = true := by
      rw [List.any_eq_true]
      exact ⟨inst, hmem, by simp [hpi, hstrip]⟩
    simp [hany]

/-- C1 amended witness: two stored instances sharing the raw PatientID
`"P1"` produce exactly one MatchResult for `"P1"`. -/
theorem find_dedups_by_raw_patient_id_witness :
    ∃ evs, handle_find [dsP1a, dsP1b] queryP1 cfalse = .ok evs ∧
      (evs.filter (isMatchFor "P1")).length = 1 :=
  find_dedups_by_raw_patient_id [dsP1a, dsP1b] queryP1 "P1" "P1" cfalse
    rfl rfl (by decide) (fun _ => rfl) ⟨dsP1a, by simp, rfl, rfl⟩

/-- C7 counterexample: with one stored patient `"A"`, a PATIENT-level
query whose PatientID attribute is present but empty yields the empty
sequence — the code's truthiness guard `ds.PatientID` rejects the empty
value — rather than MatchResults for the stored patients as universal
matching would require. -/
theorem find_empty_patient_id_cex :
    handle_find [dsA] queryEmptyPid cfalse = .ok [] ∧
    dsA.patientID = some "A" := by
  decide

/-- C7 (amended): `handle_find` treats an empty requested PatientID as
matching nothing, not as "return me": whatever the repository contains and
whatever the level, a query whose PatientID attribute is present with the
empty value yields the empty event sequence. -/
theorem find_empty_patient_id_yields_empty
    (stored : List DicomDataset) (query : DicomDataset) (isC : Nat → Bool)
    (lvl : String)
    (hlvl : query.queryRetrieveLevel = some lvl)
    (hpid : query.patientID = some "") :
    handle_find stored query isC = .ok [] := by
  by_cases hl : lvl = "PATIENT" <;>
    simp [handle_find, hlvl, hpid, hl, findYieldLoop]

/-- C7 amended witness: the concrete empty-PatientID query over a
non-empty repository yields no events. -/
theorem find_empty_patient_id_yields_empty_witness :
    handle_find [dsA] queryEmptyPid cfalse = .ok [] :=
  find_empty_patient_id_yields_empty [dsA] queryEmptyPid cfalse "PATIENT"
    rfl rfl

/-- C10: a poll at which the landing folder does not exist is a no-op on
the whole loop state — the stability counter is not advanced, the previous
count and the current file set are untouched, and no break is possible —
and when the folder never exists during the window the detector consumes
every poll of the window (blocking for the full timeout) and then returns
the empty list rather than failing. -/
theorem wait_missing_folder_no_progress (cons : Nat) :
    (∀ (rest : List (Option (List String))) (st : WaitState),
      wait_loop cons (none :: rest) st = wait_loop cons rest st) ∧
    (∀ nPolls : Nat,
      wait_for_files cons (List.replicate nPolls none) = []) := by
  constructor
  · intro rest st; rfl
  · intro nPolls
    have h : ∀ (n : Nat) (st : WaitState),
        wait_loop cons (List.replicate n none) st = st.currentFiles := by
      intro n
      induction n with
      | zero => intro st; rfl
      | succ n ih =>
        intro st
        rw [List.replicate_succ]
        exact ih st
    exact h nPolls _

/-- every run of equal counts has length at least one. -/
theorem runLen_pos (cs : List Nat) : ∀ i, 1 ≤ runLen cs i
  | 0 => le_refl 1
  | i + 1 => by unfold runLen; split <;> omega

/-- the run length at poll `i` exceeds `r` exactly when the `r + 1`
observations ending at poll `i` are all equal — the "count unchanged for
`r` consecutive polls" condition. -/
theorem runLen_iff_window (cs : List Nat) (r : Nat) :
    ∀ i, r + 1 ≤ runLen cs i ↔
      (r ≤ i ∧ ∀ k ≤ r, cs.getD (i - k) 0 = cs.getD i 0) := by
  induction r with
  | zero =>
    intro i
    constructor
    · intro _
      refine ⟨Nat.zero_le i, fun k hk => ?_⟩
      have hk0 : k = 0 := Nat.le_zero.mp hk
      subst hk0
      simp
    · intro _
      exact runLen_pos cs i
  | succ r ihr =>
    intro i
    cases i with
    | zero =>
      constructor
      · intro h
        have h1 : runLen cs 0 = 1 := rfl
        omega
      · rintro ⟨hri, -⟩
        omega
    | succ j =>
      by_cases heq : cs.getD (j + 1) 0 = cs.getD j 0
      · rw [runLen, if_pos heq]
        constructor
        · intro h
          have hj := (ihr j).mp (by omega)
          refine ⟨by omega, fun k hk => ?_⟩
          cases k with
          | zero => rfl
          | succ k' =>
            have hsub : j + 1 - (k' + 1) = j - k' := by omega
            rw [hsub, heq]
            exact hj.2 k' (by omega)
        · rintro ⟨hri, hall⟩
          have hj : r + 1 ≤ runLen cs j := by
            refine (ihr j).mpr ⟨by omega, fun k hk => ?_⟩
            have h1 := hall (k + 1) (by omega)
            have hsub : j + 1 - (k + 1) = j - k := by omega
            rw [hsub, heq] at h1
            exact h1
          omega
      · rw [runLen, if_neg heq]
        constructor
        · intro h
          exact absurd h (by omega)
        · rintro ⟨hri, hall⟩
          exfalso
          have h1 := hall 1 (by omega)
          simp only [Nat.add_sub_cancel] at h1
          exact heq h1.symm

/-- invariant-carrying characterization of the polling loop on a window in
which the folder exists at every poll: starting at absolute poll index `p`
with a state whose fields summarize polls `0..p-1` (initial state when
`p = 0`), the loop stops at the first poll whose run of equal counts
exceeds `consecutive`, or at the last poll of the window when no such poll
exists, and returns the `.dcm` listing observed at the stopping poll. -/
theorem wait_loop_run (cons : Nat) (listings : List (List String))
    (hn : 0 < listings.length) :
    ∀ (A : List (List String)) (p : Nat) (st : WaitState),
      listings.drop p = A → p ≤ listings.length →
      ((p = 0 ∧ st = ⟨0, -1, []⟩) ∨
        (0 < p ∧
          st.previousCount = ((pollCounts listings).getD (p - 1) 0 : Int) ∧
          st.stableCount + 1 = runLen (pollCounts listings) (p - 1) ∧
          st.stableCount + 1 ≤ cons ∧
          st.currentFiles = dcmFilter (listings.getD (p - 1) []))) →
      ∃ i, i < listings.length ∧
        wait_loop cons (A.map some) st = dcmFilter (listings.getD i []) ∧
        (∀ j, p ≤ j → j < i →
          ¬ cons + 1 ≤ runLen (pollCounts listings) j) ∧
        (cons + 1 ≤ runLen (pollCounts listings) i ∨
          (i = listings.length - 1 ∧
            ∀ j, p ≤ j → j < listings.length →
              ¬ cons + 1 ≤ runLen (pollCounts listings) j)) := by
  intro A
  induction A with
  | nil =>
    intro p st hA hp hInv
    have hpn : listings.length ≤ p := List.drop_eq_nil_iff.mp hA
    have hpe : p = listings.length := le_antisymm hp hpn
    rcases hInv with ⟨h0, _⟩ | ⟨hpos, hprev, hstab, hle, hfiles⟩
    · omega
    · refine ⟨listings.length - 1, by omega, ?_, ?_, ?_⟩
      · simp only [List.map_nil, wait_loop]
        rw [hfiles, hpe]
      · intro j hj hjlt
        omega
      · right
        exact ⟨rfl, fun j hj hjn => absurd (by omega : (False : Prop)) id⟩
  | cons l rest ih =>
    intro p st hA hp hInv
    have hpn : p < listings.length := by
      by_contra hcon
      have hnil : listings.drop p = [] :=
        List.drop_eq_nil_iff.mpr (by omega)
      rw [hnil] at hA
      simp at hA
    have h0 : listings[p]? = some l := by
      have hd := List.getElem?_drop listings p 0
      rw [hA] at hd
      simpa using hd.symm
    have hgetp : listings.getD p [] = l := by
      simp [List.getD_eq_getElem?_getD, h0]
    have hcget : (pollCounts listings).getD p 0 = (dcmFilter l).length := by
      have hm : (pollCounts listings)[p]? = some ((dcmFilter l).length) := by
        rw [pollCounts, List.getElem?_map, h0]
        rfl
      simp [List.getD_eq_getElem?_getD, hm]
    have hdrop1 : listings.drop (p + 1) = rest := by
      have hdd : listings.drop (p + 1) = (listings.drop p).drop 1 := by
        rw [List.drop_drop]
      rw [hdd, hA]
      rfl
    simp only [List.map_cons, wait_loop]
    by_cases hceq : ((dcmFilter l).length : Int) = st.previousCount
    · -- the observed count equals the previous one
      rcases hInv with ⟨hp0, hst⟩ | ⟨hpos, hprev, hstab, hle, hfiles⟩
      · exfalso
        rw [hst] at hceq
        simp only at hceq
        omega
      · have hcc : (pollCounts listings).getD p 0 =
            (pollCounts listings).getD (p - 1) 0 := by
          have hint : (((pollCounts listings).getD p 0 : Nat) : Int) =
              (((pollCounts listings).getD (p - 1) 0 : Nat) : Int) := by
            rw [hcget, hceq, hprev]
          exact_mod_cast hint
        have hrun : runLen (pollCounts listings) p = st.stableCount + 2 := by
          have hp1 : p = (p - 1) + 1 := by omega
          conv_lhs => rw [hp1]
          rw [runLen, ← hp1, if_pos hcc, ← hstab]
        by_cases hbrk : cons ≤ st.stableCount + 1
        · rw [if_pos hceq, if_pos hbrk]
          refine ⟨p, hpn, by rw [hgetp], ?_, ?_⟩
          · intro j hj hjlt
            omega
          · left
            rw [hrun]
            omega
        · rw [if_pos hceq, if_neg hbrk]
          obtain ⟨i, hi, hres, hnb, hdis⟩ := ih (p + 1)
            ⟨st.stableCount + 1, st.previousCount, dcmFilter l⟩ hdrop1
            (by omega)
            (Or.inr ⟨by omega,
              by
                show st.previousCount =
                  ((pollCounts listings).getD (p + 1 - 1) 0 : Int)
                simp only [Nat.add_sub_cancel]
                rw [hprev, hcc],
              by
                show st.stableCount + 1 + 1 =
                  runLen (pollCounts listings) (p + 1 - 1)
                simp only [Nat.add_sub_cancel]
                rw [hrun],
              by
                show st.stableCount + 1 + 1 ≤ cons
                omega,
              by
                show dcmFilter l = dcmFilter (listings.getD (p + 1 - 1) [])
                simp only [Nat.add_sub_cancel]
                rw [hgetp]⟩)
          refine ⟨i, hi, hres, ?_, ?_⟩
          · intro j hj hjlt
            by_cases hjp : j = p
            · subst hjp
              rw [hrun]
              omega
            · exact hnb j (by omega) hjlt
          · rcases hdis with hB | ⟨hieq, hall⟩
            · exact Or.inl hB
            · refine Or.inr ⟨hieq, fun j hj hjn => ?_⟩
              by_cases hjp : j = p
              · subst hjp
                rw [hrun]
                omega
              · exact hall j (by omega) hjn
    · -- the observed count differs from the previous one
      have hrun : runLen (pollCounts listings) p = 1 := by
        rcases Nat.eq_zero_or_pos p with hp0 | hppos
        · subst hp0
          rfl
        · rcases hInv with ⟨hz, _⟩ | ⟨_, hprev, _, _, _⟩
          · omega
          · have hne : ¬ (pollCounts listings).getD p 0 =
                (pollCounts listings).getD (p - 1) 0 := by
              intro hcontra
              apply hceq
              rw [hprev, ← hcontra, hcget]
            have hp1 : p = (p - 1) + 1 := by omega
            conv_lhs => rw [hp1]
            rw [runLen, ← hp1, if_neg hne]
      by_cases hbrk : cons ≤ 0
      · rw [if_neg hceq, if_pos hbrk]
        refine ⟨p, hpn, by rw [hgetp], ?_, ?_⟩
        · intro j hj hjlt
          omega
        · left
          rw [hrun]
          omega
      · rw [if_neg hceq, if_neg hbrk]
        obtain ⟨i, hi, hres, hnb, hdis⟩ := ih (p + 1)
          ⟨0, ((dcmFilter l).length : Int), dcmFilter l⟩ hdrop1
          (by omega)
          (Or.inr ⟨by omega,
            by
              show ((dcmFilter l).length : Int) =
                ((pollCounts listings).getD (p + 1 - 1) 0 : Int)
              simp only [Nat.add_sub_cancel]
              rw [hcget],
            by
              show 0 + 1 = runLen (pollCounts listings) (p + 1 - 1)
              simp only [Nat.add_sub_cancel]
              rw [hrun],
            by
              show 0 + 1 ≤ cons
              omega,
            by
              show dcmFilter l = dcmFilter (listings.getD (p + 1 - 1) [])
              simp only [Nat.add_sub_cancel]
              rw [hgetp]⟩)
        refine ⟨i, hi, hres, ?_, ?_⟩
        · intro j hj hjlt
          by_cases hjp : j = p
          · subst hjp
            rw [hrun]
            omega
          · exact hnb j (by omega) hjlt
        · rcases hdis with hB | ⟨hieq, hall⟩
          · exact Or.inl hB
          · refine Or.inr ⟨hieq, fun j hj hjn => ?_⟩
            by_cases hjp : j = p
            · subst hjp
              rw [hrun]
              omega
            · exact hall j (by omega) hjn

/-- C9: over a window in which the landing folder exists at every poll,
`wait_for_files` stops at the earlier of the two conditions — the first
poll at which the observed `.dcm` item count has been unchanged for
`consecutive` consecutive polls (`stableWindow`), or, when no poll of the
window satisfies that, the last poll before the timeout elapses — and it
returns exactly the set of `.dcm` items observed at that stopping poll
(possibly under-complete when the timeout fires first). -/
theorem wait_for_files_stops_at_earlier_condition
    (cons : Nat) (listings : List (List String)) (h : listings ≠ []) :
    ∃ i, i < listings.length ∧
      wait_for_files cons (listings.map some) =
        dcmFilter (listings.getD i []) ∧
      (∀ j, j < i → ¬ stableWindow cons (pollCounts listings) j) ∧
      (stableWindow cons (pollCounts listings) i ∨
        (i = listings.length - 1 ∧
          ∀ j, j < listings.length →
            ¬ stableWindow cons (pollCounts listings) j)) := by
  have hn : 0 < listings.length := List.length_pos.mpr h
  obtain ⟨i, hi, hres, hnb, hdis⟩ := wait_loop_run cons listings hn
    listings 0 ⟨0, -1, []⟩ rfl (Nat.zero_le _) (Or.inl ⟨rfl, rfl⟩)
  refine ⟨i, hi, hres, ?_, ?_⟩
  · intro j hj hsw
    exact hnb j (Nat.zero_le j) hj
      ((runLen_iff_window (pollCounts listings) cons j).mpr hsw)
  · rcases hdis with hB | ⟨hieq, hall⟩
    · exact Or.inl
        ((runLen_iff_window (pollCounts listings) cons i).mp hB)
    · refine Or.inr ⟨hieq, fun j hjn hsw => ?_⟩
      exact hall j (Nat.zero_le j) hjn
        ((runLen_iff_window (pollCounts listings) cons j).mpr hsw)

/-- C9 witness: four polls, count stable from the second poll on, with
`consecutive = 2`: the detector stops at the first stable-window poll and
returns the `.dcm` items observed there. -/
theorem wait_for_files_stops_at_earlier_condition_witness :
    ∃ i,
      i < ([["b.txt"], ["a.dcm"], ["a.dcm"], ["a.dcm"]] :
        List (List String)).length ∧
      wait_for_files 2
        (([["b.txt"], ["a.dcm"], ["a.dcm"], ["a.dcm"]] :
          List (List String)).map some) =
        dcmFilter (([["b.txt"], ["a.dcm"], ["a.dcm"], ["a.dcm"]] :
          List (List String)).getD i []) ∧
      (∀ j, j < i → ¬ stableWindow 2
        (pollCounts [["b.txt"], ["a.dcm"], ["a.dcm"], ["a.dcm"]]) j) ∧
      (stableWindow 2
        (pollCounts [["b.txt"], ["a.dcm"], ["a.dcm"], ["a.dcm"]]) i ∨
        (i = ([["b.txt"], ["a.dcm"], ["a.dcm"], ["a.dcm"]] :
          List (List String)).length - 1 ∧
          ∀ j, j < ([["b.txt"], ["a.dcm"], ["a.dcm"], ["a.dcm"]] :
            List (List String)).length →
            ¬ stableWindow 2
              (pollCounts [["b.txt"], ["a.dcm"], ["a.dcm"], ["a.dcm"]]) j)) :=
  wait_for_files_stops_at_earlier_condition 2 _ (by decide)
